import Mathlib

/-!
Verification of the ASCII art generator (`src/ascii_art.c`).

The C program maintains a shared `ART_HEIGHT × ART_WIDTH` character canvas,
mutated by worker processes drawing random filled circles and read by a
supervisor that periodically prints it.  We shallowly embed the canvas
operations (`clear_canvas`, `draw_random_shape`'s drawing loop,
`print_canvas`'s read of the grid), the shape generator, the worker
process's control flow, and `main`'s orchestration, and prove or refute
the specified properties about them.
-/

namespace AsciiArt

/-- `#define ART_WIDTH 50` -/
def ART_WIDTH : Nat := 50

/-- `#define ART_HEIGHT 15` -/
def ART_HEIGHT : Nat := 15

/-- `#define MAX_WORKERS 2` -/
def MAX_WORKERS : Nat := 2

/-- The shared canvas `char canvas[ART_HEIGHT][ART_WIDTH]`, modelled as a
total function from (row, column) to the stored character.  Only indices
with `y < ART_HEIGHT` and `x < ART_WIDTH` correspond to real cells. -/
def Canvas : Type := Nat → Nat → Char

/-- A single store `canvas[y][x] = v`. -/
def update (c : Canvas) (y x : Nat) (v : Char) : Canvas :=
  fun y' x' => if y' = y ∧ x' = x then v else c y' x'

/-- `clear_canvas`: the nested loop
`for y in [0,ART_HEIGHT) for x in [0,ART_WIDTH) canvas[y][x] = ' '`. -/
def clear_canvas (c : Canvas) : Canvas :=
  (List.range ART_HEIGHT).foldl (fun acc y =>
    (List.range ART_WIDTH).foldl (fun acc2 x => update acc2 y x ' ') acc) c

/-- `print_canvas`'s observation of the grid: the sequence of characters it
reads, row by row (`putchar(shared_memory->canvas[y][x])`). -/
def snapshot (c : Canvas) : List (List Char) :=
  (List.range ART_HEIGHT).map (fun y => (List.range ART_WIDTH).map (fun x => c y x))

/-- A shape as drawn by `draw_random_shape`: center `(center_x, center_y)`,
radius, and the chosen symbol. -/
structure Shape where
  cx : Int
  cy : Int
  radius : Int
  color : Char

/-- The guard of the drawing loop: `dx*dx + dy*dy <= radius*radius` with
`dx = x - center_x`, `dy = y - center_y`. -/
def inCircle (s : Shape) (y x : Nat) : Prop :=
  ((x : Int) - s.cx) * ((x : Int) - s.cx) +
    ((y : Int) - s.cy) * ((y : Int) - s.cy) ≤ s.radius * s.radius

instance (s : Shape) (y x : Nat) : Decidable (inCircle s y x) := by
  unfold inCircle; infer_instance

/-- The drawing loop of `draw_random_shape` (lines 62–70): for every cell of
the grid, if it lies within the circle, store the shape's symbol. -/
def draw_shape (s : Shape) (c : Canvas) : Canvas :=
  (List.range ART_HEIGHT).foldl (fun acc y =>
    (List.range ART_WIDTH).foldl (fun acc2 x =>
      if inCircle s y x then update acc2 y x s.color else acc2) acc) c

/-- `char colors[] = {'@', ')', '*', '+', '.', '$', '(', '0', '&', '%'}` -/
def colors : List Char := ['@', ')', '*', '+', '.', '$', '(', '0', '&', '%']

/-- The shape chosen by `draw_random_shape` from four successive values of
`rand()` (each a nonnegative machine integer, modelled as `Nat`):
`center_x = rand() % ART_WIDTH`, `center_y = rand() % ART_HEIGHT`,
`radius = 2 + rand() % 4`, `color = colors[rand() % 10]`. -/
def random_shape (r1 r2 r3 r4 : Nat) : Shape :=
  { cx := ((r1 % ART_WIDTH : Nat) : Int)
  , cy := ((r2 % ART_HEIGHT : Nat) : Int)
  , radius := ((2 + r3 % 4 : Nat) : Int)
  , color := colors.get ⟨r4 % colors.length, Nat.mod_lt _ (by decide)⟩ }

/-- Applying a sequence of shapes to the canvas, in order. -/
def apply_shapes (ss : List Shape) (c : Canvas) : Canvas :=
  ss.foldl (fun acc s => draw_shape s acc) c

/-! ### Pointwise characterization of the drawing loops -/

theorem update_apply (c : Canvas) (y x : Nat) (v : Char) (y' x' : Nat) :
    update c y x v y' x' = if y' = y ∧ x' = x then v else c y' x' := rfl

/-- Inner loop of a conditional row write: the final value of a cell is the
written value exactly when the cell is in the written row, its column is in
the index list, and the guard holds. -/
theorem foldl_row_apply (p : Nat → Prop) [DecidablePred p] (col : Char) (y : Nat)
    (l : List Nat) (c : Canvas) (y' x' : Nat) :
    (l.foldl (fun acc2 x => if p x then update acc2 y x col else acc2) c) y' x' =
      if y' = y ∧ x' ∈ l ∧ p x' then col else c y' x' := by
  induction l generalizing c with
  | nil => simp
  | cons a l ih =>
    rw [List.foldl_cons, ih]
    have happ : (if p a then update c y a col else c) y' x' =
        if p a then update c y a col y' x' else c y' x' :=
      apply_ite (fun f : Canvas => f y' x') (p a) _ _
    rw [happ, update_apply]
    simp only [List.mem_cons]
    by_cases hxa : x' = a
    · subst hxa
      split_ifs <;> tauto
    · split_ifs <;> tauto

/-- Outer loop: nested conditional writes over rows `l` and columns
`List.range ART_WIDTH`. -/
theorem foldl_grid_apply (q : Nat → Nat → Prop) [∀ y x, Decidable (q y x)]
    (col : Char) (l : List Nat) (c : Canvas) (y' x' : Nat) :
    (l.foldl (fun acc y =>
        (List.range ART_WIDTH).foldl
          (fun acc2 x => if q y x then update acc2 y x col else acc2) acc) c) y' x' =
      if y' ∈ l ∧ x' < ART_WIDTH ∧ q y' x' then col else c y' x' := by
  induction l generalizing c with
  | nil => simp
  | cons a l ih =>
    rw [List.foldl_cons, ih, foldl_row_apply]
    simp only [List.mem_cons, List.mem_range]
    by_cases hya : y' = a
    · subst hya
      split_ifs <;> tauto
    · split_ifs <;> tauto

/-- Cell-level description of the drawing loop: a cell holds the shape's
symbol iff it is in bounds and inside the circle; otherwise it keeps its
previous value. -/
theorem draw_shape_apply (s : Shape) (c : Canvas) (y x : Nat) :
    draw_shape s c y x =
      if y < ART_HEIGHT ∧ x < ART_WIDTH ∧ inCircle s y x then s.color else c y x := by
  unfold draw_shape
  rw [foldl_grid_apply (fun y x => inCircle s y x) s.color (List.range ART_HEIGHT) c y x]
  simp [List.mem_range]

/-- Cell-level description of `clear_canvas`: every in-bounds cell becomes a
blank, all other coordinates are untouched. -/
theorem clear_canvas_apply (c : Canvas) (y x : Nat) :
    clear_canvas c y x =
      if y < ART_HEIGHT ∧ x < ART_WIDTH then ' ' else c y x := by
  unfold clear_canvas
  have h := foldl_grid_apply (fun _ _ => True) ' ' (List.range ART_HEIGHT) c y x
  simp only [if_true] at h
  simp only [List.mem_range] at h
  calc ((List.range ART_HEIGHT).foldl (fun acc y =>
          (List.range ART_WIDTH).foldl (fun acc2 x => update acc2 y x ' ') acc) c) y x
      = ((List.range ART_HEIGHT).foldl (fun acc y =>
          (List.range ART_WIDTH).foldl
            (fun acc2 x => if True then update acc2 y x ' ' else acc2) acc) c) y x := by
        simp only [if_true]
    _ = if y < ART_HEIGHT ∧ x < ART_WIDTH ∧ True then ' ' else c y x := h
    _ = if y < ART_HEIGHT ∧ x < ART_WIDTH then ' ' else c y x := by simp

/-! ### The drawing loop as a sequence of single-cell writes

The C program has no synchronization primitive: workers write the shared
canvas cell by cell while the supervisor reads it cell by cell, so other
processes can observe the canvas between any two of a drawing loop's
stores.  `draw_writes` lists the stores the loop performs, in program
order, and `draw_upto` is the canvas state after the first `t` of them. -/

/-- The cells written by `draw_random_shape`'s loop, in program order
(row-major, only cells inside the circle). -/
def draw_writes (s : Shape) : List (Nat × Nat) :=
  (List.range ART_HEIGHT).flatMap (fun y =>
    ((List.range ART_WIDTH).filter (fun x => decide (inCircle s y x))).map
      (fun x => (y, x)))

/-- Perform a list of single-cell stores of the character `col`. -/
def apply_writes (col : Char) (ws : List (Nat × Nat)) (c : Canvas) : Canvas :=
  ws.foldl (fun acc w => update acc w.1 w.2 col) c

/-- The canvas state after the drawing loop has performed its first `t`
cell stores (an intermediate state visible to concurrent readers). -/
def draw_upto (s : Shape) (t : Nat) (c : Canvas) : Canvas :=
  apply_writes s.color ((draw_writes s).take t) c

/-! ### Worker process control flow (`worker_process`, lines 78–112)

The worker's observable actions are modelled as an event trace.  Inputs:
whether the initial `fork()` for the sub-task succeeded, and for each
iteration of the drawing loop the outcome of `rand() % 5 == 0`. -/

inductive WEvent where
  /-- one call to `draw_random_shape` -/
  | drew
  /-- `kill(child_pid, SIGTERM)` sent to the sub-task -/
  | killSig
  /-- the final `wait(NULL)` on the sub-task -/
  | waited
  /-- `perror("fork failed")` -/
  | logFail
deriving DecidableEq

/-- The worker's drawing loop (lines 91–102): one entry of `ds` per
iteration, `true` meaning `rand() % 5 == 0`.  The boolean state is
`child_pid > 0` (sub-task still alive).  Returns the events of the loop
and the final aliveness of the sub-task. -/
def worker_iters : List Bool → Bool → List WEvent × Bool
  | [], alive => ([], alive)
  | d :: ds, alive =>
    if d && alive then
      let r := worker_iters ds false
      (WEvent.drew :: WEvent.killSig :: r.1, r.2)
    else
      let r := worker_iters ds alive
      (WEvent.drew :: r.1, r.2)

/-- `worker_process` as seen from the worker itself: if the sub-task
`fork()` succeeded (`forkOk`), run the drawing loop and then `wait` for
the child only if it is still alive; if the `fork()` failed, only
`perror` is executed and the loop body is never entered.  Either way the
worker exits with status 0 (line 111). -/
def worker_process_model (forkOk : Bool) (ds : List Bool) : List WEvent × Nat :=
  if forkOk then
    let r := worker_iters ds true
    (r.1 ++ (if r.2 then [WEvent.waited] else []), 0)
  else
    ([WEvent.logFail], 0)

/-! ### Supervisor control flow (`main`, lines 114–174) -/

inductive MEvent where
  /-- `clear_canvas()` -/
  | cleared
  /-- a `print_canvas()` call -/
  | printed
  /-- worker `i` forked successfully and its pid recorded -/
  | launched (i : Nat)
  /-- `perror("fork failed")` in the launch loop -/
  | logForkFail
  /-- `kill(workers[i], SIGTERM)` from the supervisor -/
  | killedWorker (i : Nat)
  /-- one `wait(&status)` in the final loop -/
  | waitedWorker
  /-- the final `print_canvas()` after all waits -/
  | finalPrint
deriving DecidableEq

/-- The worker launch loop (lines 131–143): one entry of `fs` per `fork()`
attempt, `true` = success (parent view).  On the first failure the loop
issues `perror` and `exit(1)` is taken by the caller; the boolean result
records whether all launches succeeded. -/
def launch_loop : List Bool → Nat → List MEvent × Bool
  | [], _ => ([], true)
  | f :: fs, i =>
    if f then
      let r := launch_loop fs (i + 1)
      (MEvent.launched i :: r.1, r.2)
    else
      ([MEvent.logForkFail], false)

/-- The display loop (lines 146–157): five rounds of sleep + print, with a
`kill` of worker `kc` sent right after the third print. -/
def display_loop (kc : Nat) : List MEvent :=
  (List.range 5).flatMap (fun i =>
    MEvent.printed :: (if i = 2 then [MEvent.killedWorker kc] else []))

/-- `main`'s control flow.  `allocOk` is whether `shmget`/`shmat`
succeeded — the source never inspects their results, so it cannot appear
in any branch.  `forks` gives the launch loop's `fork()` outcomes and
`kc` the value of `rand()` used to pick the worker to kill.  Result:
event trace and exit status. -/
def main_model (_allocOk : Bool) (forks : List Bool) (kc : Nat) : List MEvent × Nat :=
  let l := launch_loop forks 0
  if l.2 then
    ([MEvent.cleared, MEvent.printed] ++ l.1 ++ display_loop (kc % MAX_WORKERS)
      ++ List.replicate MAX_WORKERS MEvent.waitedWorker ++ [MEvent.finalPrint], 0)
  else
    ([MEvent.cleared, MEvent.printed] ++ l.1, 1)

/-! ### The write sequence is complete: performing all of it is the draw -/

theorem foldl_flatMap_writes (g : Nat → List (Nat × Nat))
    (f : Canvas → Nat × Nat → Canvas) (l : List Nat) (c : Canvas) :
    (l.flatMap g).foldl f c = l.foldl (fun acc y => (g y).foldl f acc) c := by
  induction l generalizing c with
  | nil => rfl
  | cons a l ih => rw [List.flatMap_cons, List.foldl_append, List.foldl_cons, ih]

theorem foldl_row_writes (p : Nat → Bool) (col : Char) (y : Nat)
    (l : List Nat) (c : Canvas) :
    ((l.filter p).map (fun x => ((y, x) : Nat × Nat))).foldl
        (fun acc w => update acc w.1 w.2 col) c =
      l.foldl (fun acc x => if p x = true then update acc y x col else acc) c := by
  induction l generalizing c with
  | nil => rfl
  | cons a l ih =>
    rw [List.filter_cons, List.foldl_cons]
    by_cases hpa : p a = true
    · rw [if_pos hpa, List.map_cons, List.foldl_cons, if_pos hpa]
      exact ih _
    · rw [if_neg hpa, if_neg hpa]
      exact ih _

/-- Performing every store of `draw_writes s` is exactly the drawing loop
of `draw_random_shape`. -/
theorem apply_writes_draw_writes (s : Shape) (c : Canvas) :
    apply_writes s.color (draw_writes s) c = draw_shape s c := by
  unfold apply_writes draw_writes draw_shape
  rw [foldl_flatMap_writes]
  have h : ∀ (y : Nat) (acc : Canvas),
      (((List.range ART_WIDTH).filter (fun x => decide (inCircle s y x))).map
          (fun x => ((y, x) : Nat × Nat))).foldl
        (fun acc2 w => update acc2 w.1 w.2 s.color) acc =
      (List.range ART_WIDTH).foldl
        (fun acc2 x => if inCircle s y x then update acc2 y x s.color else acc2) acc := by
    intro y acc
    rw [foldl_row_writes]
    simp only [decide_eq_true_eq]
  have hfun :
      (fun (acc : Canvas) (y : Nat) =>
        (((List.range ART_WIDTH).filter (fun x => decide (inCircle s y x))).map
            (fun x => ((y, x) : Nat × Nat))).foldl
          (fun acc2 w => update acc2 w.1 w.2 s.color) acc) =
      (fun (acc : Canvas) (y : Nat) =>
        (List.range ART_WIDTH).foldl
          (fun acc2 x => if inCircle s y x then update acc2 y x s.color else acc2) acc) :=
    funext fun acc => funext fun y => h y acc
  rw [hfun]

/-! ### Worker loop lemmas -/

/-- Once the sub-task is gone (`child_pid = 0`), the loop never sends
another kill signal and the sub-task stays gone. -/
theorem worker_iters_dead (ds : List Bool) :
    (worker_iters ds false).1.count WEvent.killSig = 0 ∧
      (worker_iters ds false).2 = false := by
  induction ds with
  | nil => exact ⟨rfl, rfl⟩
  | cons d ds ih =>
    simp only [worker_iters, Bool.and_false, Bool.false_eq_true, if_false]
    exact ⟨by rw [List.count_cons]; simp [ih.1], ih.2⟩

/-- The drawing loop itself never performs a `wait`. -/
theorem worker_iters_no_waited (ds : List Bool) (a : Bool) :
    WEvent.waited ∉ (worker_iters ds a).1 := by
  induction ds generalizing a with
  | nil => simp [worker_iters]
  | cons d ds ih =>
    simp only [worker_iters]
    by_cases h : (d && a) = true
    · simpa [h] using ih false
    · simpa [h] using ih a

/-- With a live sub-task the loop kills it at most once, and if the
sub-task is still alive at loop exit then no kill was ever sent. -/
theorem worker_iters_live (ds : List Bool) :
    (worker_iters ds true).1.count WEvent.killSig ≤ 1 ∧
      ((worker_iters ds true).2 = true →
        (worker_iters ds true).1.count WEvent.killSig = 0) := by
  induction ds with
  | nil => exact ⟨Nat.zero_le 1, fun _ => rfl⟩
  | cons d ds ih =>
    cases d with
    | true =>
      simp only [worker_iters, Bool.true_and, if_true]
      refine ⟨?_, ?_⟩
      · simp [List.count_cons, (worker_iters_dead ds).1]
      · intro h2
        rw [(worker_iters_dead ds).2] at h2
        exact absurd h2 (by simp)
    | false =>
      simp only [worker_iters, Bool.false_and, Bool.false_eq_true, if_false]
      refine ⟨?_, ?_⟩
      · simpa [List.count_cons] using ih.1
      · intro h2
        simpa [List.count_cons] using ih.2 h2

/-! ### Launch loop lemmas -/

/-- The launch loop never kills or awaits workers, and on failure it logs
the fork failure. -/
theorem launch_loop_events (fs : List Bool) (i0 j : Nat) :
    MEvent.killedWorker j ∉ (launch_loop fs i0).1 ∧
      MEvent.waitedWorker ∉ (launch_loop fs i0).1 ∧
      ((launch_loop fs i0).2 = false → MEvent.logForkFail ∈ (launch_loop fs i0).1) := by
  induction fs generalizing i0 with
  | nil => refine ⟨by simp [launch_loop], by simp [launch_loop], fun h => absurd h (by simp [launch_loop])⟩
  | cons f fs ih =>
    by_cases hf : f = true
    · simp only [launch_loop, hf, if_true]
      refine ⟨?_, ?_, ?_⟩
      · simp only [List.mem_cons]
        rintro (h1 | h2)
        · exact MEvent.noConfusion h1
        · exact (ih (i0 + 1)).1 h2
      · simp only [List.mem_cons]
        rintro (h1 | h2)
        · exact MEvent.noConfusion h1
        · exact (ih (i0 + 1)).2.1 h2
      · intro h
        exact List.mem_cons_of_mem _ ((ih (i0 + 1)).2.2 h)
    · simp only [launch_loop, hf, if_false]
      exact ⟨by simp, by simp, fun _ => by simp⟩

/-! ### Shared helper facts for the claims -/

/-- The all-blank canvas (the state right after `clear_canvas`). -/
def blank : Canvas := fun _ _ => ' '

/-- The symbol chosen by `draw_random_shape` always comes from its `colors`
array. -/
theorem random_shape_color_mem (r1 r2 r3 r4 : Nat) :
    (random_shape r1 r2 r3 r4).color ∈ colors :=
  List.get_mem _ _ _

/-- Unfolding one step of `apply_shapes`. -/
theorem apply_shapes_cons (s : Shape) (ss : List Shape) (c : Canvas) :
    apply_shapes (s :: ss) c = apply_shapes ss (draw_shape s c) := rfl

/-- Applying shapes whose symbols come from the alphabet preserves the
cell invariant "blank or alphabet symbol". -/
theorem apply_shapes_alphabet (ss : List Shape) (h : ∀ s ∈ ss, s.color ∈ colors)
    (c : Canvas) (y x : Nat) (hc : c y x = ' ' ∨ c y x ∈ colors) :
    apply_shapes ss c y x = ' ' ∨ apply_shapes ss c y x ∈ colors := by
  induction ss generalizing c with
  | nil => exact hc
  | cons s ss ih =>
    rw [apply_shapes_cons]
    refine ih (fun t ht => h t (List.mem_cons_of_mem _ ht)) _ ?_
    rw [draw_shape_apply]
    split_ifs with hcnd
    · exact Or.inr (h s (List.mem_cons_self _ _))
    · exact hc

/-! ### The claims -/

/-- C1: applying a shape sets exactly the in-bounds cells whose squared
Euclidean distance from the center is at most the squared radius to the
shape's symbol, and leaves every other cell unchanged. -/
theorem C1_apply_sets_exactly_disk (s : Shape) (c : Canvas) (y x : Nat) :
    draw_shape s c y x =
      if y < ART_HEIGHT ∧ x < ART_WIDTH ∧
          ((x : Int) - s.cx) * ((x : Int) - s.cx) +
            ((y : Int) - s.cy) * ((y : Int) - s.cy) ≤ s.radius * s.radius
        then s.color else c y x := by
  rw [draw_shape_apply]
  rfl

/-- C2 counterexample: with a two-iteration duration budget, a worker whose
sub-task `fork()` succeeded draws twice, but a worker whose `fork()` failed
never enters the drawing loop at all (it only logs the failure), refuting
"it continues its drawing loop for its full duration budget". -/
theorem C2_counterexample :
    (worker_process_model false [true, true]).1.count WEvent.drew = 0 ∧
      (worker_process_model true [true, true]).1.count WEvent.drew = 2 := by
  decide

/-- C2 (amended): when the sub-task `fork()` fails, the worker logs the
failure, performs no drawing iteration and sends no signal, and still
terminates normally with exit status 0 — the failure is never escalated. -/
theorem C2_fork_fail_skips_loop (ds : List Bool) :
    worker_process_model false ds = ([WEvent.logFail], 0) ∧
      WEvent.drew ∉ (worker_process_model false ds).1 ∧
      WEvent.killSig ∉ (worker_process_model false ds).1 := by
  refine ⟨rfl, ?_, ?_⟩ <;> simp [worker_process_model]

/-- C3: `main` never inspects the result of `shmget`/`shmat`, so a failed
canvas allocation changes nothing: no diagnostic is issued, the run is not
aborted, workers are still launched and the run exits 0. -/
theorem C3_alloc_failure_not_checked (forks : List Bool) (kc : Nat) :
    main_model false forks kc = main_model true forks kc ∧
      MEvent.launched 0 ∈ (main_model false [true, true] 0).1 ∧
      (main_model false [true, true] 0).2 = 0 := by
  refine ⟨rfl, ?_, ?_⟩ <;> decide

/-- C4 counterexample: when worker 0 launches and the `fork()` for worker 1
fails, `main` exits with status 1 immediately — worker 0 is neither sent a
cancellation signal nor awaited, refuting "every already-launched Worker is
first sent a cancellation signal and awaited". -/
theorem C4_counterexample :
    (main_model true [true, false] 0).2 = 1 ∧
      MEvent.launched 0 ∈ (main_model true [true, false] 0).1 ∧
      MEvent.killedWorker 0 ∉ (main_model true [true, false] 0).1 ∧
      MEvent.waitedWorker ∉ (main_model true [true, false] 0).1 := by
  decide

/-- C4 (amended): if any launch `fork()` fails, the run aborts with exit
status 1 and the failure is logged, but already-launched workers are
neither signaled nor awaited before the exit. -/
theorem C4_launch_failure_aborts (allocOk : Bool) (forks : List Bool) (kc j : Nat)
    (h : (launch_loop forks 0).2 = false) :
    (main_model allocOk forks kc).2 = 1 ∧
      MEvent.logForkFail ∈ (main_model allocOk forks kc).1 ∧
      MEvent.killedWorker j ∉ (main_model allocOk forks kc).1 ∧
      MEvent.waitedWorker ∉ (main_model allocOk forks kc).1 := by
  have hl := launch_loop_events forks 0 j
  have hm : main_model allocOk forks kc =
      ([MEvent.cleared, MEvent.printed] ++ (launch_loop forks 0).1, 1) := by
    simp only [main_model, h, Bool.false_eq_true, if_false]
  rw [hm]
  refine ⟨rfl, ?_, ?_, ?_⟩
  · exact List.mem_append_right _ (hl.2.2 h)
  · intro hmem
    rcases List.mem_append.1 hmem with h1 | h2
    · simp at h1
    · exact hl.1 h2
  · intro hmem
    rcases List.mem_append.1 hmem with h1 | h2
    · simp at h1
    · exact hl.2.1 h2

theorem C4_launch_failure_aborts_witness :
    (launch_loop [true, false] 0).2 = false ∧
      ((main_model true [true, false] 0).2 = 1 ∧
        MEvent.logForkFail ∈ (main_model true [true, false] 0).1 ∧
        MEvent.killedWorker 0 ∉ (main_model true [true, false] 0).1 ∧
        MEvent.waitedWorker ∉ (main_model true [true, false] 0).1) :=
  ⟨by decide, C4_launch_failure_aborts true [true, false] 0 0 (by decide)⟩

set_option maxRecDepth 40000 in
/-- C5 counterexample: the program has no synchronization, so a snapshot
may be taken between two cell stores of one drawing loop; after the first
store of the shape centered at (0,0) with radius 2 on a blank canvas, the
observed grid equals neither the pre-draw nor the post-draw grid — a
half-old/half-new snapshot, refuting "every snapshot observes a
fully-consistent grid". -/
theorem C5_counterexample :
    ¬ (snapshot (draw_upto ⟨0, 0, 2, '@'⟩ 1 blank) = snapshot blank ∨
        snapshot (draw_upto ⟨0, 0, 2, '@'⟩ 1 blank) =
          snapshot (draw_shape ⟨0, 0, 2, '@'⟩ blank)) := by
  decide

set_option maxRecDepth 40000 in
/-- C5 (amended): canvas mutations and snapshot reads are not serialized:
there is a shape, a canvas and an interruption point of the drawing loop
such that the snapshot taken there matches neither the canvas before the
shape application nor the canvas after it. -/
theorem C5_torn_snapshot_exists :
    ∃ (s : Shape) (c : Canvas) (t : Nat),
      snapshot (draw_upto s t c) ≠ snapshot c ∧
        snapshot (draw_upto s t c) ≠ snapshot (draw_shape s c) :=
  ⟨⟨0, 0, 2, '@'⟩, blank, 1, by decide, by decide⟩

/-- C6: starting from a cleared canvas, after any sequence of shapes
produced by the random generator, every in-bounds cell is blank or one of
the ten alphabet symbols. -/
theorem C6_alphabet_invariant (rs : List (Nat × Nat × Nat × Nat)) (c0 : Canvas)
    (y x : Nat) (hy : y < ART_HEIGHT) (hx : x < ART_WIDTH) :
    apply_shapes (rs.map fun r => random_shape r.1 r.2.1 r.2.2.1 r.2.2.2)
        (clear_canvas c0) y x = ' ' ∨
      apply_shapes (rs.map fun r => random_shape r.1 r.2.1 r.2.2.1 r.2.2.2)
        (clear_canvas c0) y x ∈ colors := by
  refine apply_shapes_alphabet _ ?_ _ y x ?_
  · intro s hs
    rcases List.mem_map.1 hs with ⟨r, _, rfl⟩
    exact random_shape_color_mem r.1 r.2.1 r.2.2.1 r.2.2.2
  · rw [clear_canvas_apply]
    simp [hy, hx]

theorem C6_alphabet_invariant_witness :
    (0 < ART_HEIGHT ∧ 0 < ART_WIDTH) ∧
      (apply_shapes ([((0, 0, 0, 0) : Nat × Nat × Nat × Nat)].map
            fun r => random_shape r.1 r.2.1 r.2.2.1 r.2.2.2)
          (clear_canvas blank) 0 0 = ' ' ∨
        apply_shapes ([((0, 0, 0, 0) : Nat × Nat × Nat × Nat)].map
            fun r => random_shape r.1 r.2.1 r.2.2.1 r.2.2.2)
          (clear_canvas blank) 0 0 ∈ colors) :=
  ⟨by decide, C6_alphabet_invariant [(0, 0, 0, 0)] blank 0 0 (by decide) (by decide)⟩

/-- C7: `clear_canvas` blanks every in-bounds cell, and the snapshot of a
cleared canvas (unchanged by any number of reads, which do not mutate) is
the all-blank grid. -/
theorem C7_clear_all_blank (c : Canvas) :
    (∀ y x, y < ART_HEIGHT → x < ART_WIDTH → clear_canvas c y x = ' ') ∧
      snapshot (clear_canvas c) =
        List.replicate ART_HEIGHT (List.replicate ART_WIDTH ' ') := by
  constructor
  · intro y x hy hx
    rw [clear_canvas_apply]
    simp [hy, hx]
  · unfold snapshot
    rw [List.eq_replicate_iff]
    refine ⟨by simp, ?_⟩
    intro row hrow
    rcases List.mem_map.1 hrow with ⟨y, hy, rfl⟩
    rw [List.eq_replicate_iff]
    refine ⟨by simp, ?_⟩
    intro b hb
    rcases List.mem_map.1 hb with ⟨x, hx, rfl⟩
    rw [clear_canvas_apply]
    simp [List.mem_range.1 hy, List.mem_range.1 hx]

theorem C7_clear_all_blank_witness :
    clear_canvas (fun _ _ => 'Q') 3 5 = ' ' :=
  (C7_clear_all_blank (fun _ _ => 'Q')).1 3 5 (by decide) (by decide)

/-- C8: every generated shape has its center inside the grid, a radius in
[2, 5], and a symbol from the ten-symbol alphabet, whatever the values
drawn from the random source. -/
theorem C8_random_shape_ranges (r1 r2 r3 r4 : Nat) :
    0 ≤ (random_shape r1 r2 r3 r4).cx ∧
      (random_shape r1 r2 r3 r4).cx < (ART_WIDTH : Int) ∧
      0 ≤ (random_shape r1 r2 r3 r4).cy ∧
      (random_shape r1 r2 r3 r4).cy < (ART_HEIGHT : Int) ∧
      2 ≤ (random_shape r1 r2 r3 r4).radius ∧
      (random_shape r1 r2 r3 r4).radius ≤ 5 ∧
      (random_shape r1 r2 r3 r4).color ∈ colors := by
  have h1 : r1 % ART_WIDTH < ART_WIDTH := Nat.mod_lt _ (by decide)
  have h2 : r2 % ART_HEIGHT < ART_HEIGHT := Nat.mod_lt _ (by decide)
  have h3 : r3 % 4 < 4 := Nat.mod_lt _ (by decide)
  refine ⟨?_, ?_, ?_, ?_, ?_, ?_, random_shape_color_mem r1 r2 r3 r4⟩ <;>
    simp only [random_shape] <;> omega

/-- C9: the worker sends at most one kill signal to its sub-task; once the
sub-task has been killed no `wait` is attempted on it, and when the
sub-task is absent (failed `fork()`) no signal and no `wait` ever occur. -/
theorem C9_cancel_once (ds : List Bool) :
    (worker_process_model true ds).1.count WEvent.killSig ≤ 1 ∧
      (WEvent.killSig ∈ (worker_process_model true ds).1 →
        WEvent.waited ∉ (worker_process_model true ds).1) ∧
      WEvent.killSig ∉ (worker_process_model false ds).1 ∧
      WEvent.waited ∉ (worker_process_model false ds).1 := by
  have hlive := worker_iters_live ds
  have hnw := worker_iters_no_waited ds true
  have hm : worker_process_model true ds =
      ((worker_iters ds true).1 ++
        (if (worker_iters ds true).2 then [WEvent.waited] else []), 0) := rfl
  refine ⟨?_, ?_, by simp [worker_process_model], by simp [worker_process_model]⟩
  · rw [hm]
    simp only [List.count_append]
    have h2 : (if (worker_iters ds true).2 then [WEvent.waited] else []).count
        WEvent.killSig = 0 := by
      by_cases h : (worker_iters ds true).2 = true <;> simp [h]
    rw [h2]
    simpa using hlive.1
  · intro hk
    rw [hm] at hk ⊢
    simp only at hk ⊢
    by_cases hr : (worker_iters ds true).2 = true
    · exfalso
      have h0 := hlive.2 hr
      have hk1 : WEvent.killSig ∈ (worker_iters ds true).1 := by
        rcases List.mem_append.1 hk with h1 | h1
        · exact h1
        · rw [hr] at h1
          simp at h1
      have := List.count_pos_iff.2 hk1
      omega
    · have hr' : (worker_iters ds true).2 = false := by
        cases hcase : (worker_iters ds true).2
        · rfl
        · exact absurd hcase hr
      rw [hr']
      simp only [Bool.false_eq_true, if_false, List.append_nil]
      exact hnw

theorem C9_cancel_once_witness :
    (worker_process_model true [true]).1.count WEvent.killSig ≤ 1 ∧
      WEvent.waited ∉ (worker_process_model true [true]).1 :=
  ⟨(C9_cancel_once [true]).1, (C9_cancel_once [true]).2.1 (by decide)⟩

/-- C10: applying the same shape twice in succession yields the same canvas
as applying it once. -/
theorem C10_draw_idempotent (s : Shape) (c : Canvas) :
    draw_shape s (draw_shape s c) = draw_shape s c := by
  funext y x
  rw [draw_shape_apply s (draw_shape s c) y x, draw_shape_apply s c y x]
  split_ifs <;> rfl

end AsciiArt
